import Mathlib

/-!
Shallow embedding of the hubble-install command-line installer
(Go sources under internal/platform, internal/config, internal/ui,
internal/boards and main.go), together with theorems settling the
frozen claims about its specification.

Strings coming from subprocess output are modelled as lists of
characters (`Str`); executables present on the search path are
modelled as a boolean-valued presence function; running an external
command is modelled as a function from the command line to an
optional error (`none` = exit status zero).
-/

namespace HubbleInstall

abbrev Str := List Char

abbrev Err := String

/-! ## Subprocess output relay (darwin.go)

`streamOutputAndCaptureDeviceName` scans each stdout line for the
marker `Naming device`; on a match it takes the text between the
first double quote on the line and the next double quote, and, when
that text is nonempty, performs a non-blocking send into the
one-slot `deviceNameChan` (first successful send wins, later sends
are dropped).  `FlashBoard` reads the slot after the subprocess has
exited and falls back to `"your-device"` when the slot is empty. -/

/-- The marker scanned for on each stdout line (darwin.go line 429). -/
def namingMarker : Str := "Naming device".toList

/-- The default device name used when no name was captured
(darwin.go line 338). -/
def defaultDeviceName : Str := "your-device".toList

/-- `strings.Contains`: `pat` occurs as a contiguous substring. -/
def containsSub (pat : Str) : Str → Bool
  | [] => pat.isEmpty
  | c :: rest => pat.isPrefixOf (c :: rest) || containsSub pat rest

/-- Text strictly before the next double quote; `none` when no closing
quote exists (models `strings.Index(line[startQuote+1:], "\"")`
returning `-1`). -/
def readUntilQuote : Str → Option Str
  | [] => none
  | c :: rest => if c = '"' then some [] else (readUntilQuote rest).map (c :: ·)

/-- The text between the first double quote of the line and the next
double quote (darwin.go lines 431-435); `none` when the line has no
such pair of quotes. -/
def extractQuoted : Str → Option Str
  | [] => none
  | c :: rest => if c = '"' then readUntilQuote rest else extractQuoted rest

/-- Non-blocking send into the one-slot channel: the first published
value wins, later sends hit the `default` case and are dropped. -/
def tryPublish (slot : Option Str) (v : Str) : Option Str :=
  match slot with
  | none => some v
  | some w => some w

/-- Effect of relaying one stdout line on the channel slot
(darwin.go lines 423-445). -/
def processLine (slot : Option Str) (line : Str) : Option Str :=
  if containsSub namingMarker line then
    match extractQuoted line with
    | some deviceName =>
        if deviceName.isEmpty then slot else tryPublish slot deviceName
    | none => slot
  else slot

/-- Relaying a whole stdout stream through
`streamOutputAndCaptureDeviceName`, starting from slot state `slot`. -/
def scanLines (slot : Option Str) (lines : List Str) : Option Str :=
  lines.foldl processLine slot

/-- Abstract outcomes of the external steps `FlashBoard` performs
before and around the relay: locating `uv`, creating the two pipes,
starting the subprocess and waiting for it. -/
structure FlashEnv where
  uvFound : Bool
  stdoutPipeErr : Option Err
  stderrPipeErr : Option Err
  startErr : Option Err
  waitErr : Option Err
  deriving DecidableEq, Repr

/-- `FlashBoard` (darwin.go lines 273-343), with the subprocess stdout
stream given as a list of lines.  On success it returns the device
name captured by the relay, defaulted to `"your-device"`. -/
def flashBoard (e : FlashEnv) (stdoutLines : List Str) : Except Err Str :=
  if !e.uvFound then .error "uv not found in PATH"
  else match e.stdoutPipeErr with
  | some er => .error ("failed to create stdout pipe: " ++ er)
  | none => match e.stderrPipeErr with
    | some er => .error ("failed to create stderr pipe: " ++ er)
    | none => match e.startErr with
      | some er => .error ("failed to start flash command: " ++ er)
      | none => match e.waitErr with
        | some er => .error ("flash command failed: " ++ er)
        | none => .ok ((scanLines none stdoutLines).getD defaultDeviceName)

/-- A line from which the relay publishes a value: it contains the
marker and its first quoted substring exists and is nonempty. -/
def capturingLine (line : Str) : Bool :=
  containsSub namingMarker line &&
    match extractQuoted line with
    | some v => !v.isEmpty
    | none => false

/-- A `FlashEnv` in which every external step succeeds. -/
def flashEnvOk : FlashEnv :=
  { uvFound := true, stdoutPipeErr := none, stderrPipeErr := none,
    startErr := none, waitErr := none }

theorem scanLines_some (w : Str) (lines : List Str) :
    scanLines (some w) lines = some w := by
  induction lines with
  | nil => rfl
  | cons l ls ih =>
      have hstep : processLine (some w) l = some w := by
        cases hx : extractQuoted l <;> simp [processLine, tryPublish, hx]
      simpa [scanLines, hstep] using ih

theorem processLine_not_capturing (l : Str) (h : capturingLine l = false) :
    processLine none l = none := by
  unfold capturingLine at h
  unfold processLine
  cases hm : containsSub namingMarker l with
  | false => simp [hm]
  | true =>
      cases hx : extractQuoted l with
      | none => simp [hm, hx]
      | some v =>
          simp [hm, hx] at h ⊢
          simp [h]

theorem processLine_capturing (l : Str) (h : capturingLine l = true) :
    processLine none l = extractQuoted l := by
  unfold capturingLine at h
  unfold processLine
  cases hm : containsSub namingMarker l with
  | false => simp [hm] at h
  | true =>
      cases hx : extractQuoted l with
      | none => simp [hm, hx] at h
      | some v =>
          simp [hm, hx] at h ⊢
          simp [h, tryPublish]

/-- The relay slot after the whole stream equals the extraction from
the first capturing line (marker present, nonempty quoted value). -/
theorem scanLines_eq_find (lines : List Str) :
    scanLines none lines = (lines.find? capturingLine).bind extractQuoted := by
  induction lines with
  | nil => rfl
  | cons l ls ih =>
      cases h : capturingLine l with
      | false =>
          have := processLine_not_capturing l h
          simp [scanLines, List.find?, h, this] at ih ⊢
          exact ih
      | true =>
          have hline := processLine_capturing l h
          have hx : ∃ v, extractQuoted l = some v ∧ v.isEmpty = false := by
            unfold capturingLine at h
            cases hx : extractQuoted l with
            | none => simp [hx] at h
            | some v =>
                refine ⟨v, rfl, ?_⟩
                simp [hx] at h
                cases v with
                | nil => exact absurd rfl h.2
                | cons a as => rfl
          obtain ⟨v, hv, _⟩ := hx
          simp [scanLines, List.find?, h, hline, hv]
          simpa [scanLines] using scanLines_some v ls

/-- A capturing line always yields a nonempty extracted value. -/
theorem capturingLine_extract (l : Str) (h : capturingLine l = true) :
    ∃ v, extractQuoted l = some v ∧ v ≠ [] := by
  unfold capturingLine at h
  cases hx : extractQuoted l with
  | none => simp [hx] at h
  | some v =>
      refine ⟨v, rfl, ?_⟩
      simp [hx] at h
      rcases h with ⟨-, h2⟩
      simpa [List.isEmpty_iff] using h2

/-- C1: for every stdout stream fed to the flash-output relay, if some
line contains the `Naming device` marker together with an extractable
double-quoted value (a nonempty first quoted substring — `""` carries
no value and is skipped by the relay, compare darwin.go line 436), the
value `FlashBoard` delivers is exactly the first quoted substring of
the first such line; if no line contains the marker with a quoted
value, `FlashBoard` returns the default placeholder `"your-device"`. -/
theorem c1_relay_extracts_first_quoted (e : FlashEnv) (lines : List Str)
    (h1 : e.uvFound = true) (h2 : e.stdoutPipeErr = none)
    (h3 : e.stderrPipeErr = none) (h4 : e.startErr = none)
    (h5 : e.waitErr = none) :
    (∀ l v, lines.find? capturingLine = some l → extractQuoted l = some v →
      flashBoard e lines = .ok v)
    ∧ (lines.find? capturingLine = none →
      flashBoard e lines = .ok defaultDeviceName) := by
  have hfb : flashBoard e lines
      = .ok ((scanLines none lines).getD defaultDeviceName) := by
    simp [flashBoard, h1, h2, h3, h4, h5]
  constructor
  · intro l v hl hv
    rw [hfb, scanLines_eq_find, hl]
    simp [hv]
  · intro hnone
    rw [hfb, scanLines_eq_find, hnone]
    rfl

theorem c1_relay_extracts_first_quoted_witness :
    flashBoard flashEnvOk
        ["[INFO] No name supplied. Naming device \"my-device\"".toList]
      = Except.ok "my-device".toList ∧
    flashBoard flashEnvOk ["no marker here".toList]
      = Except.ok defaultDeviceName :=
  ⟨(c1_relay_extracts_first_quoted flashEnvOk _ rfl rfl rfl rfl rfl).1
      "[INFO] No name supplied. Naming device \"my-device\"".toList
      "my-device".toList (by decide) (by decide),
   (c1_relay_extracts_first_quoted flashEnvOk _ rfl rfl rfl rfl rfl).2
      (by decide)⟩

/-- C10: the device name returned by a successful `FlashBoard` is
never the empty string: an empty quoted value is never published to
the one-slot channel, so the result is either a nonempty extracted
substring or the default `"your-device"`. -/
theorem c10_device_name_nonempty (e : FlashEnv) (lines : List Str)
    (d : Str) (h : flashBoard e lines = .ok d) : d ≠ [] := by
  cases hu : e.uvFound <;> simp [flashBoard, hu] at h
  cases hp1 : e.stdoutPipeErr <;> rw [hp1] at h <;> try simp at h
  cases hp2 : e.stderrPipeErr <;> rw [hp2] at h <;> try simp at h
  cases hp3 : e.startErr <;> rw [hp3] at h <;> try simp at h
  cases hp4 : e.waitErr <;> rw [hp4] at h <;> try simp at h
  cases hf : lines.find? capturingLine with
  | none =>
      have hs : scanLines none lines = none := by
        rw [scanLines_eq_find, hf]; rfl
      rw [hs] at h
      simp [Option.getD] at h
      rw [← h]
      decide
  | some l =>
      have hc : capturingLine l = true := List.find?_some hf
      obtain ⟨v, hv, hvne⟩ := capturingLine_extract l hc
      have hs : scanLines none lines = some v := by
        rw [scanLines_eq_find, hf]
        simpa using hv
      rw [hs] at h
      simp [Option.getD] at h
      rw [← h]
      exact hvne

theorem c10_device_name_nonempty_witness :
    defaultDeviceName ≠ ([] : Str) :=
  c10_device_name_nonempty flashEnvOk [] defaultDeviceName rfl

/-! ## Package-manager selection and prerequisite check (linux.go)

The execution environment is modelled by the presence function
`has : String → Bool`, standing for `exec.LookPath` succeeding on the
named executable (`commandExists` / `commandExistsGlobal`). -/

/-- `PackageManager` (linux.go lines 18-25). -/
inductive PackageManager where
  | unknown
  | apt
  | yum
  | dnf
  deriving DecidableEq, Repr

/-- `detectPackageManager` (linux.go lines 484-495): probe for
`apt-get`, then `dnf`, then `yum`. -/
def detectPackageManager (has : String → Bool) : PackageManager :=
  if has "apt-get" then .apt
  else if has "dnf" then .dnf
  else if has "yum" then .yum
  else .unknown

/-- The fixed probe order of the selector, paired with the probed
executable names.  This is the specification-side description; the
claim compares `detectPackageManager` against it. -/
def probeOrder : List (PackageManager × String) :=
  [(.apt, "apt-get"), (.dnf, "dnf"), (.yum, "yum")]

/-- Specification-side selector (from the spec text, not the source):
the first manager of `probeOrder` whose executable is present, or the
`unknown` sentinel when none is. -/
def selectorSpec (has : String → Bool) : PackageManager :=
  ((probeOrder.find? (fun pr => has pr.2)).map Prod.fst).getD .unknown

/-- C2: for every environment, the selector returns the first matching
manager in the fixed priority order apt-get, dnf, yum, and returns the
`unknown` sentinel exactly when none of the three executables is
present. -/
theorem c2_selector_first_match (has : String → Bool) :
    detectPackageManager has = selectorSpec has
    ∧ (detectPackageManager has = .unknown ↔
        (has "apt-get" = false ∧ has "dnf" = false ∧ has "yum" = false)) := by
  cases h1 : has "apt-get" <;> cases h2 : has "dnf" <;> cases h3 : has "yum" <;>
    simp [detectPackageManager, selectorSpec, probeOrder, List.find?, h1, h2, h3]

theorem c2_selector_first_match_witness :
    detectPackageManager (fun s => s = "yum" || s = "dnf") = PackageManager.dnf ∧
    detectPackageManager (fun _ => false) = PackageManager.unknown := by
  have h := c2_selector_first_match (fun s => s = "yum" || s = "dnf")
  have h0 := c2_selector_first_match (fun _ => false)
  exact ⟨by rw [h.1]; decide, by rw [h0.1]; decide⟩

/-- `MissingDependency` (platform.go). -/
structure MissingDependency where
  name : String
  status : String
  deriving DecidableEq, Repr

/-- The descriptor appended when `uv` is absent (linux.go lines 84-89). -/
def uvDep : MissingDependency := { name := "uv", status := "Not installed" }

/-- The descriptor appended when `JLinkExe` is absent
(linux.go lines 91-97). -/
def jlinkDep : MissingDependency :=
  { name := "segger-jlink", status := "Not installed" }

/-- `LinuxInstaller.CheckPrerequisites` (linux.go lines 75-100): the
returned pair models the Go `([]MissingDependency, error)` result. -/
def checkPrerequisites (pm : PackageManager) (has : String → Bool) :
    List MissingDependency × Option Err :=
  if pm = .unknown then
    ([], some "unsupported Linux distribution - only apt, dnf, and yum are supported")
  else
    ((if !has "uv" then [uvDep] else []) ++
      (if !has "JLinkExe" then [jlinkDep] else []), none)

/-- C6: when the package-manager selector returned the `unknown`
sentinel, `CheckPrerequisites` returns an error and a nil missing
list; when a known manager was detected it returns no error and lists
exactly the required dependencies whose executables are absent. -/
theorem c6_prerequisites_unknown_fails (pm : PackageManager)
    (has : String → Bool) :
    (pm = .unknown →
      (checkPrerequisites pm has).1 = [] ∧
      (checkPrerequisites pm has).2.isSome)
    ∧ (pm ≠ .unknown →
      (checkPrerequisites pm has).2 = none
      ∧ (uvDep ∈ (checkPrerequisites pm has).1 ↔ has "uv" = false)
      ∧ (jlinkDep ∈ (checkPrerequisites pm has).1 ↔ has "JLinkExe" = false)
      ∧ ∀ d ∈ (checkPrerequisites pm has).1, d = uvDep ∨ d = jlinkDep) := by
  constructor
  · intro hpm
    simp [checkPrerequisites, hpm]
  · intro hpm
    cases h1 : has "uv" <;> cases h2 : has "JLinkExe" <;>
      simp [checkPrerequisites, hpm, h1, h2, uvDep, jlinkDep]

theorem c6_prerequisites_unknown_fails_witness :
    (checkPrerequisites .unknown (fun _ => false)).1 = [] ∧
    (checkPrerequisites .unknown (fun _ => false)).2.isSome ∧
    (checkPrerequisites .apt (fun s => s = "uv")).1 = [jlinkDep] ∧
    (checkPrerequisites .apt (fun s => s = "uv")).2 = none := by
  refine ⟨?_, ?_, by decide, ?_⟩
  · exact (c6_prerequisites_unknown_fails .unknown (fun _ => false)).1 rfl |>.1
  · exact (c6_prerequisites_unknown_fails .unknown (fun _ => false)).1 rfl |>.2
  · exact ((c6_prerequisites_unknown_fails .apt (fun s => s = "uv")).2
      (by decide)).1

/-! ## Running external commands (linux.go, darwin.go)

`run` maps a command line to the outcome of `cmd.Run()`
(`none` = exit status zero, `some er` = non-zero exit wrapped in the
Go error string); `sudoAccess` is the outcome of `ensureSudoAccess`.
Both are fixed by the environment, so repeated runs of the same
command give the same outcome. -/

structure ExecEnv where
  run : List String → Option Err
  sudoAccess : Option Err

/-- Command line used by `installPackage` for each known manager
(linux.go lines 513-520). -/
def pmInstallCmd (pm : PackageManager) (pkg : String) : List String :=
  match pm with
  | .apt => ["sudo", "apt-get", "install", "-y", pkg]
  | .dnf => ["sudo", "dnf", "install", "-y", pkg]
  | .yum => ["sudo", "yum", "install", "-y", pkg]
  | .unknown => []

/-- Command line used by `removePackage` for each known manager
(linux.go lines 540-547). -/
def pmRemoveCmd (pm : PackageManager) (pkg : String) : List String :=
  match pm with
  | .apt => ["sudo", "apt-get", "remove", "-y", pkg]
  | .dnf => ["sudo", "dnf", "remove", "-y", pkg]
  | .yum => ["sudo", "yum", "remove", "-y", pkg]
  | .unknown => []

/-- Update / check-update command line used by `InstallPackageManager`
(linux.go lines 112-121). -/
def pmUpdateCmd (pm : PackageManager) : List String :=
  match pm with
  | .apt => ["sudo", "apt-get", "update", "-y"]
  | .dnf => ["sudo", "dnf", "check-update", "-y"]
  | .yum => ["sudo", "yum", "check-update", "-y"]
  | .unknown => []

/-- `installPackage` (linux.go lines 510-534): unknown manager is an
error, otherwise the result of `cmd.Run()` is returned as-is. -/
def installPackage (e : ExecEnv) (pm : PackageManager) (pkg : String) :
    Option Err :=
  match pm with
  | .unknown => some "unsupported package manager"
  | _ => e.run (pmInstallCmd pm pkg)

/-- `removePackage` (linux.go lines 537-557). -/
def removePackage (e : ExecEnv) (pm : PackageManager) (pkg : String) :
    Option Err :=
  match pm with
  | .unknown => some "unsupported package manager"
  | _ => e.run (pmRemoveCmd pm pkg)

/-- `LinuxInstaller.InstallPackageManager` (linux.go lines 103-131):
after a successful sudo check and for a known manager, the
update/check-update command is run and its exit status deliberately
ignored (`cmd.Run()` with no error check, line 127). -/
def installPackageManager (e : ExecEnv) (pm : PackageManager) : Option Err :=
  match e.sudoAccess with
  | some er => some er
  | none =>
    match pm with
    | .unknown => some "unsupported package manager"
    | _ =>
        let _ := e.run (pmUpdateCmd pm)
        none

/-- C8: no subprocess error is silently swallowed except the
update-check command: for a known manager, `installPackage` and
`removePackage` propagate the exact outcome of the package-manager
command (in particular every non-zero exit becomes an error), while
`InstallPackageManager` returns nil regardless of the update command's
exit status. -/
theorem c8_update_errors_ignored (e : ExecEnv) (pm : PackageManager)
    (pkg : String) (hpm : pm ≠ .unknown) (hsudo : e.sudoAccess = none) :
    installPackage e pm pkg = e.run (pmInstallCmd pm pkg)
    ∧ removePackage e pm pkg = e.run (pmRemoveCmd pm pkg)
    ∧ (∀ er, e.run (pmInstallCmd pm pkg) = some er →
        installPackage e pm pkg = some er)
    ∧ installPackageManager e pm = none := by
  cases pm with
  | unknown => exact absurd rfl hpm
  | apt => exact ⟨rfl, rfl, fun er h => h, by simp [installPackageManager, hsudo]⟩
  | dnf => exact ⟨rfl, rfl, fun er h => h, by simp [installPackageManager, hsudo]⟩
  | yum => exact ⟨rfl, rfl, fun er h => h, by simp [installPackageManager, hsudo]⟩

/-- An environment whose every command fails with exit status 100. -/
def failingExecEnv : ExecEnv :=
  { run := fun _ => some "exit status 100", sudoAccess := none }

theorem c8_update_errors_ignored_witness :
    installPackage failingExecEnv .apt "uv" = some "exit status 100" ∧
    installPackageManager failingExecEnv .apt = none := by
  have h := c8_update_errors_ignored failingExecEnv .apt "uv"
    (by decide) rfl
  exact ⟨h.1, h.2.2.2⟩

/-! ## Parallel dependency installation (darwin.go, linux.go)

Each of the two install tasks is modelled as a pair
`(error sent to the channel, whether the install action was invoked)`.
The buffered error channel receives, in goroutine completion order
(abstracted by the `uvFirst` schedule flag), the error of each failing
task; after `wg.Wait()` the orchestrator returns the first error read
from the channel. -/

/-- The `for err := range errChan` loop after `close(errChan)`
(darwin.go lines 250-254, linux.go lines 189-193): return the first
non-nil error, `nil` when the channel is empty. -/
def firstChanErr : List Err → Option Err
  | [] => none
  | er :: _ => some er

/-- Channel contents for a two-task run under a schedule: the failing
tasks' errors in completion order. -/
def chanContents (uvFirst : Bool) (uvErr jlinkErr : Option Err) : List Err :=
  (if uvFirst then [uvErr, jlinkErr] else [jlinkErr, uvErr]).filterMap id

/-- Environment for `DarwinInstaller.InstallDependencies`:
`bootstrapResult` abstracts `InstallPackageManager()` (Homebrew
bootstrap), invoked only when `brew` is absent. -/
structure DarwinDepEnv where
  exec : ExecEnv
  brewPresent : Bool
  uvPresent : Bool
  jlinkPresent : Bool
  bootstrapResult : Option Err

/-- The uv goroutine (darwin.go lines 212-226): skip when present,
otherwise `brew install uv`; a failure is wrapped and sent to the
channel.  Second component: whether the install action was invoked. -/
def darwinUvTask (d : DarwinDepEnv) : Option Err × Bool :=
  if d.uvPresent then (none, false)
  else match d.exec.run ["brew", "install", "uv"] with
    | some er => (some ("failed to install uv: " ++ er), true)
    | none => (none, true)

/-- The segger-jlink goroutine (darwin.go lines 229-243). -/
def darwinJlinkTask (d : DarwinDepEnv) : Option Err × Bool :=
  if d.jlinkPresent then (none, false)
  else match d.exec.run ["brew", "install", "segger-jlink"] with
    | some er => (some ("failed to install segger-jlink: " ++ er), true)
    | none => (none, true)

/-- `DarwinInstaller.InstallDependencies` (darwin.go lines 199-257):
result error, whether the uv install action was invoked, whether the
segger-jlink install action was invoked. -/
def darwinInstallDependencies (d : DarwinDepEnv) (uvFirst : Bool) :
    Option Err × Bool × Bool :=
  match (if d.brewPresent then none else d.bootstrapResult) with
  | some er => (some er, false, false)
  | none =>
      let u := darwinUvTask d
      let j := darwinJlinkTask d
      (firstChanErr (chanContents uvFirst u.1 j.1), u.2, j.2)

/-- Environment for `LinuxInstaller.InstallDependencies`:
`jlinkInstallResult` abstracts `installJLink()` (download from
segger.com plus package/archive install). -/
structure LinuxDepEnv where
  exec : ExecEnv
  pm : PackageManager
  uvPresent : Bool
  jlinkPresent : Bool
  jlinkInstallResult : Option Err

/-- The uv goroutine (linux.go lines 150-164). -/
def linuxUvTask (l : LinuxDepEnv) : Option Err × Bool :=
  if l.uvPresent then (none, false)
  else match installPackage l.exec l.pm "uv" with
    | some er => (some ("failed to install uv: " ++ er), true)
    | none => (none, true)

/-- The segger-jlink goroutine (linux.go lines 167-182). -/
def linuxJlinkTask (l : LinuxDepEnv) : Option Err × Bool :=
  if l.jlinkPresent then (none, false)
  else match l.jlinkInstallResult with
    | some er => (some ("failed to install segger-jlink: " ++ er), true)
    | none => (none, true)

/-- `LinuxInstaller.InstallDependencies` (linux.go lines 134-196):
sudo check and package-list update run synchronously before the
parallel phase. -/
def linuxInstallDependencies (l : LinuxDepEnv) (uvFirst : Bool) :
    Option Err × Bool × Bool :=
  match l.exec.sudoAccess with
  | some er => (some er, false, false)
  | none =>
      match installPackageManager l.exec l.pm with
      | some er => (some er, false, false)
      | none =>
          let u := linuxUvTask l
          let j := linuxJlinkTask l
          (firstChanErr (chanContents uvFirst u.1 j.1), u.2, j.2)

/-- The first channel error of a two-task run is the error of the
first-completing failing task. -/
theorem firstChanErr_or (uvFirst : Bool) (u j : Option Err) :
    firstChanErr (chanContents uvFirst u j)
      = (if uvFirst then Option.or u j else Option.or j u) := by
  cases uvFirst <;> cases u <;> cases j <;> rfl

theorem installPackageManager_ok (e : ExecEnv) (pm : PackageManager)
    (hs : e.sudoAccess = none) (hp : pm ≠ .unknown) :
    installPackageManager e pm = none := by
  cases pm with
  | unknown => exact absurd rfl hp
  | apt => simp [installPackageManager, hs]
  | dnf => simp [installPackageManager, hs]
  | yum => simp [installPackageManager, hs]

/-- C3: for every outcome of the two parallel install tasks (once the
synchronous bootstrap phase succeeded), `InstallDependencies` returns
an error whenever at least one task reported a non-nil error, and the
error returned is the first non-nil error taken from the shared error
channel after both tasks finished — on both the macOS and the Linux
installer. -/
theorem c3_first_error_wins (d : DarwinDepEnv) (l : LinuxDepEnv)
    (uvFirst : Bool)
    (hd : (if d.brewPresent then none else d.bootstrapResult) = none)
    (hs : l.exec.sudoAccess = none) (hp : l.pm ≠ .unknown) :
    (((darwinUvTask d).1.isSome ∨ (darwinJlinkTask d).1.isSome) →
      (darwinInstallDependencies d uvFirst).1.isSome)
    ∧ (darwinInstallDependencies d uvFirst).1 =
        (if uvFirst then Option.or (darwinUvTask d).1 (darwinJlinkTask d).1
         else Option.or (darwinJlinkTask d).1 (darwinUvTask d).1)
    ∧ (((linuxUvTask l).1.isSome ∨ (linuxJlinkTask l).1.isSome) →
      (linuxInstallDependencies l uvFirst).1.isSome)
    ∧ (linuxInstallDependencies l uvFirst).1 =
        (if uvFirst then Option.or (linuxUvTask l).1 (linuxJlinkTask l).1
         else Option.or (linuxJlinkTask l).1 (linuxUvTask l).1) := by
  have hipm := installPackageManager_ok l.exec l.pm hs hp
  have hde : (darwinInstallDependencies d uvFirst).1 =
      (if uvFirst then Option.or (darwinUvTask d).1 (darwinJlinkTask d).1
       else Option.or (darwinJlinkTask d).1 (darwinUvTask d).1) := by
    simp [darwinInstallDependencies, hd, firstChanErr_or]
  have hle : (linuxInstallDependencies l uvFirst).1 =
      (if uvFirst then Option.or (linuxUvTask l).1 (linuxJlinkTask l).1
       else Option.or (linuxJlinkTask l).1 (linuxUvTask l).1) := by
    simp [linuxInstallDependencies, hs, hipm, firstChanErr_or]
  refine ⟨?_, hde, ?_, hle⟩
  · intro h
    rw [hde]
    cases uvFirst <;>
      cases hu : (darwinUvTask d).1 <;> cases hj : (darwinJlinkTask d).1 <;>
        simp [hu, hj] at h ⊢
  · intro h
    rw [hle]
    cases uvFirst <;>
      cases hu : (linuxUvTask l).1 <;> cases hj : (linuxJlinkTask l).1 <;>
        simp [hu, hj] at h ⊢

/-- A macOS environment in which both install actions always fail. -/
def bothFailDarwinEnv : DarwinDepEnv :=
  { exec := failingExecEnv, brewPresent := true, uvPresent := false,
    jlinkPresent := false, bootstrapResult := none }

/-- A Linux environment in which both install actions always fail. -/
def bothFailLinuxEnv : LinuxDepEnv :=
  { exec := failingExecEnv, pm := .apt, uvPresent := false,
    jlinkPresent := false, jlinkInstallResult := some "exit status 1" }

theorem c3_first_error_wins_witness :
    (darwinInstallDependencies bothFailDarwinEnv true).1.isSome ∧
    (linuxInstallDependencies bothFailLinuxEnv true).1.isSome := by
  have h := c3_first_error_wins bothFailDarwinEnv bothFailLinuxEnv true
    rfl rfl (by decide)
  exact ⟨h.1 (Or.inl rfl), h.2.2.1 (Or.inl rfl)⟩

/-- C7: a dependency already present when `InstallDependencies` runs is
never installed again: its task contributes no error and its install
action is not invoked, on both the macOS and the Linux installer. -/
theorem c7_present_skips_install (d : DarwinDepEnv) (l : LinuxDepEnv)
    (uvFirst : Bool) :
    (d.uvPresent = true → darwinUvTask d = (none, false)
      ∧ (darwinInstallDependencies d uvFirst).2.1 = false)
    ∧ (d.jlinkPresent = true → darwinJlinkTask d = (none, false)
      ∧ (darwinInstallDependencies d uvFirst).2.2 = false)
    ∧ (l.uvPresent = true → linuxUvTask l = (none, false)
      ∧ (linuxInstallDependencies l uvFirst).2.1 = false)
    ∧ (l.jlinkPresent = true → linuxJlinkTask l = (none, false)
      ∧ (linuxInstallDependencies l uvFirst).2.2 = false) := by
  refine ⟨fun h => ⟨by simp [darwinUvTask, h], ?_⟩,
          fun h => ⟨by simp [darwinJlinkTask, h], ?_⟩,
          fun h => ⟨by simp [linuxUvTask, h], ?_⟩,
          fun h => ⟨by simp [linuxJlinkTask, h], ?_⟩⟩
  · cases hb : (if d.brewPresent then none else d.bootstrapResult) <;>
      simp [darwinInstallDependencies, hb, darwinUvTask, h]
  · cases hb : (if d.brewPresent then none else d.bootstrapResult) <;>
      simp [darwinInstallDependencies, hb, darwinJlinkTask, h]
  · cases hsA : l.exec.sudoAccess with
    | some er => simp [linuxInstallDependencies, hsA]
    | none =>
        cases hip : installPackageManager l.exec l.pm <;>
          simp [linuxInstallDependencies, hsA, hip, linuxUvTask, h]
  · cases hsA : l.exec.sudoAccess with
    | some er => simp [linuxInstallDependencies, hsA]
    | none =>
        cases hip : installPackageManager l.exec l.pm <;>
          simp [linuxInstallDependencies, hsA, hip, linuxJlinkTask, h]

/-- A macOS environment in which both dependencies are present. -/
def allPresentDarwinEnv : DarwinDepEnv :=
  { exec := failingExecEnv, brewPresent := true, uvPresent := true,
    jlinkPresent := true, bootstrapResult := none }

/-- A Linux environment in which both dependencies are present. -/
def allPresentLinuxEnv : LinuxDepEnv :=
  { exec := failingExecEnv, pm := .apt, uvPresent := true,
    jlinkPresent := true, jlinkInstallResult := some "exit status 1" }

theorem c7_present_skips_install_witness :
    darwinUvTask allPresentDarwinEnv = (none, false) ∧
    (linuxInstallDependencies allPresentLinuxEnv true).2.2 = false :=
  ⟨((c7_present_skips_install allPresentDarwinEnv allPresentLinuxEnv true).1
      rfl).1,
   ((c7_present_skips_install allPresentDarwinEnv allPresentLinuxEnv true).2.2.2
      rfl).2⟩

/-! ## Configuration (internal/config/config.go) -/

/-- `Config` (config.go lines 11-15). -/
structure Config where
  orgID : String
  apiToken : String
  board : String
  deriving DecidableEq, Repr

/-- `Config.Validate` (config.go lines 53-64). -/
def Config.validate (c : Config) : Option Err :=
  if c.orgID = "" then some "org ID is required"
  else if c.apiToken = "" then some "API token is required"
  else if c.board = "" then some "board selection is required"
  else none

/-- `strings.HasPrefix(orgID, "org_")`. -/
def hasOrgPrefix (s : String) : Bool :=
  "org_".toList.isPrefixOf s.toList

/-- The per-rune hexadecimal test of `validateCredentials`
(part_004 lines 38-42). -/
def isHexChar (c : Char) : Bool :=
  (decide ('0' ≤ c) && decide (c ≤ '9'))
    || (decide ('a' ≤ c) && decide (c ≤ 'f'))
    || (decide ('A' ≤ c) && decide (c ≤ 'F'))

/-- `validateCredentials` (part_004 lines 20-45).  Go `len` counts
bytes, hence `utf8ByteSize`; the rune loop returns the first invalid
character. -/
def validateCredentials (orgID apiToken : String) : Option Err :=
  if !hasOrgPrefix orgID then
    some ("org_id must start with 'org_', got: " ++ orgID)
  else if orgID.utf8ByteSize < 5 then
    some ("org_id is too short: " ++ orgID)
  else if apiToken.utf8ByteSize < 32 then
    some "api_token is too short (expected ~96 hex characters)"
  else
    match apiToken.toList.find? (fun c => !isHexChar c) with
    | some c =>
        some ("api_token must be a hexadecimal string (found invalid character: "
          ++ String.mk [c] ++ ")")
    | none => none

/-- C4: `Config.Validate` rejects exactly the configurations with an
empty organization id, empty API token or empty board selection; and
`validateCredentials` rejects every organization id lacking the
`org_` prefix and every API token containing a non-hexadecimal
character. -/
theorem c4_credential_validation (c : Config) (o t : String) :
    ((Config.validate c).isSome ↔
      (c.orgID = "" ∨ c.apiToken = "" ∨ c.board = ""))
    ∧ (hasOrgPrefix o = false → (validateCredentials o t).isSome)
    ∧ ((t.toList.any fun ch => !isHexChar ch) = true →
        (validateCredentials o t).isSome) := by
  refine ⟨?_, ?_, ?_⟩
  · unfold Config.validate
    split_ifs with h1 h2 h3
    · simp [h1]
    · simp [h1, h2]
    · simp [h1, h2, h3]
    · simp [h1, h2, h3]
  · intro h
    simp [validateCredentials, h]
  · intro h
    unfold validateCredentials
    split_ifs with h1 h2 h3
    · simp
    · simp
    · simp
    · obtain ⟨x, hx, hpx⟩ := List.any_eq_true.mp h
      cases hf : t.toList.find? (fun ch => !isHexChar ch) with
      | none =>
          exact absurd hpx (by simpa using List.find?_eq_none.mp hf x hx)
      | some ch => simp

theorem c4_credential_validation_witness :
    (Config.validate { orgID := "org_x", apiToken := "ab", board := "" }).isSome
    ∧ (validateCredentials "nope"
        "0123456789abcdef0123456789abcdef").isSome
    ∧ (validateCredentials "org_x"
        "z123456789abcdef0123456789abcdef").isSome :=
  ⟨(c4_credential_validation
      { orgID := "org_x", apiToken := "ab", board := "" } "" "").1.mpr
      (Or.inr (Or.inr rfl)),
   (c4_credential_validation ⟨"", "", ""⟩ "nope"
      "0123456789abcdef0123456789abcdef").2.1 (by decide),
   (c4_credential_validation ⟨"", "", ""⟩ "org_x"
      "z123456789abcdef0123456789abcdef").2.2 (by decide)⟩

/-- `strings.TrimSpace`: strip leading and trailing whitespace.
Implemented structurally on the character list so that it evaluates
inside the kernel. -/
def trimStr (s : String) : String :=
  String.mk
    (((s.toList.dropWhile Char.isWhitespace).reverse.dropWhile
        Char.isWhitespace).reverse)

/-- `strings.SplitN(s, ":", 2)` on the character list: split at the
first colon; `none` when the string has no colon (one part only). -/
def splitOnceColon : Str → Option (Str × Str)
  | [] => none
  | c :: rest =>
      if c = ':' then some ([], rest)
      else (splitOnceColon rest).map (fun p => (c :: p.1, p.2))

/-- `strings.SplitN(s, ":", 2)` producing exactly two parts. -/
def splitN2 (s : String) : Option (String × String) :=
  (splitOnceColon s.toList).map (fun p => (String.mk p.1, String.mk p.2))

/-- The environment seen by `PromptForConfig`: `credsVar` is the raw
`HUBBLE_CREDENTIALS` value (Go `os.Getenv` returns `""` when unset),
`decoded` the outcome of `base64.StdEncoding.DecodeString` on it
(`none` = decode error), and the two plain credential variables. -/
structure CredEnv where
  credsVar : String
  decoded : Option String
  envOrgID : String
  envAPIToken : String

/-- An interactive prompt loop that re-prompts until a line trims to a
nonempty value (config.go lines 129-137 and 145-153); returns the
value and the remaining input stream, `none` when input runs out. -/
def promptNonempty : List String → Option (String × List String)
  | [] => none
  | s :: rest => if trimStr s ≠ "" then some (trimStr s, rest) else promptNonempty rest

/-- `PromptForConfig` (config.go lines 87-159), over an explicit list
of interactive input lines.  Result: configuration, the pre-configured
flag, and the input lines left unconsumed (`= inputs` means no
interactive prompting happened). -/
def promptForConfig (e : CredEnv) (inputs : List String) :
    Option (Config × Bool × List String) :=
  let fromEnv :=
    if e.envOrgID ≠ "" ∧ e.envAPIToken ≠ "" then
      some (⟨e.envOrgID, e.envAPIToken, ""⟩, true, inputs)
    else
      match (if e.envOrgID ≠ "" then some (e.envOrgID, inputs)
             else promptNonempty inputs) with
      | none => none
      | some (o, rest1) =>
          match (if e.envAPIToken ≠ "" then some (e.envAPIToken, rest1)
                 else promptNonempty rest1) with
          | none => none
          | some (t, rest2) => some (⟨o, t, ""⟩, false, rest2)
  if e.credsVar ≠ "" then
    match e.decoded with
    | some dec =>
        match splitN2 dec with
        | some (p1, p2) =>
            if trimStr p1 ≠ "" ∧ trimStr p2 ≠ "" then
              some (⟨trimStr p1, trimStr p2, ""⟩, true, inputs)
            else fromEnv
        | none => fromEnv
    | none => fromEnv
  else fromEnv

/-- C5 counterexample: the decoded credentials value never supplies
the board.  With `HUBBLE_CREDENTIALS` decoding to
`"org_x:ff:boardZ"`, `PromptForConfig` splits at the first colon
only: everything after it, `"ff:boardZ"`, becomes the API token, and
the returned configuration's board field is empty rather than
`"boardZ"`. -/
theorem c5_counterexample :
    promptForConfig
        { credsVar := "QQ==", decoded := some "org_x:ff:boardZ",
          envOrgID := "", envAPIToken := "" } []
      = some ({ orgID := "org_x", apiToken := "ff:boardZ", board := "" },
          true, [])
    ∧ ({ orgID := "org_x", apiToken := "ff:boardZ", board := "" }
        : Config).board ≠ "boardZ"
    ∧ ({ orgID := "org_x", apiToken := "ff:boardZ", board := "" }
        : Config).apiToken ≠ "ff" := by
  refine ⟨by decide, by decide, by decide⟩

/-- C5 (amended): whenever the credentials variable is set and decodes
to a value containing a colon with nonempty trimmed parts on both
sides, `PromptForConfig` returns a pre-configured configuration whose
org id and API token are the trimmed parts before and after the first
colon, whose board field is empty (the board is not part of the
decoded value), and consumes no interactive input. -/
theorem c5_preconfigured_credentials (e : CredEnv) (inputs : List String)
    (d p1 p2 : String) (h1 : e.credsVar ≠ "") (h2 : e.decoded = some d)
    (h3 : splitN2 d = some (p1, p2)) (h4 : trimStr p1 ≠ "")
    (h5 : trimStr p2 ≠ "") :
    promptForConfig e inputs
      = some (⟨trimStr p1, trimStr p2, ""⟩, true, inputs) := by
  unfold promptForConfig
  rw [if_pos h1, h2]
  simp [h3, h4, h5]

theorem c5_preconfigured_credentials_witness :
    promptForConfig
        { credsVar := "QQ==", decoded := some "org_x:ff",
          envOrgID := "", envAPIToken := "" } ["typed-line"]
      = some (⟨trimStr "org_x", trimStr "ff", ""⟩, true, ["typed-line"]) :=
  c5_preconfigured_credentials _ _ "org_x:ff" "org_x" "ff"
    (by decide) rfl (by decide) (by decide) (by decide)

/-! ## Board selection (internal/ui/ui.go, internal/boards/boards.go,
main.go) -/

/-- Value of the longest decimal-digit prefix continuing `acc`. -/
def digitsLoop : Str → Nat → Nat
  | [], acc => acc
  | c :: r, acc =>
      if c.isDigit then digitsLoop r (acc * 10 + (c.toNat - 48)) else acc

/-- Value of the longest decimal-digit prefix; `none` when the string
does not start with a digit. -/
def digitsPrefixVal : Str → Option Nat
  | [] => none
  | c :: r => if c.isDigit then some (digitsLoop r (c.toNat - 48)) else none

/-- `fmt.Sscanf(response, "%d", &choice)`: an optional sign followed by
at least one digit; trailing characters are not consumed and do not
make the scan fail. -/
def sscanfInt : Str → Option Int
  | '-' :: r => (digitsPrefixVal r).map (fun n => -(n : Int))
  | '+' :: r => (digitsPrefixVal r).map (fun n => (n : Int))
  | s => (digitsPrefixVal s).map (fun n => (n : Int))

/-- `PromptChoice` (ui.go lines 169-192) over an explicit list of
input lines: re-prompts until a line parses as an integer between 1
and the number of options, then returns that integer minus one;
`none` models blocking forever when input runs out. -/
def promptChoice (options : List String) : List String → Option Nat
  | [] => none
  | resp :: rest =>
      match sscanfInt (trimStr resp).toList with
      | some c =>
          if 1 ≤ c ∧ c ≤ (options.length : Int) then some (c - 1).toNat
          else promptChoice options rest
      | none => promptChoice options rest

theorem promptChoice_lt (options : List String) (inputs : List String)
    (i : Nat) (h : promptChoice options inputs = some i) :
    i < options.length := by
  induction inputs with
  | nil => simp [promptChoice] at h
  | cons r rest ih =>
      rw [promptChoice] at h
      cases hp : sscanfInt (trimStr r).toList with
      | none =>
          simp only [hp] at h
          exact ih h
      | some c =>
          simp only [hp] at h
          by_cases hc : 1 ≤ c ∧ c ≤ (options.length : Int)
          · rw [if_pos hc] at h
            have hi : (c - 1).toNat = i := by
              simpa using h
            omega
          · rw [if_neg hc] at h
            exact ih h

/-- `Board` (boards.go lines 6-11). -/
structure Board where
  id : String
  name : String
  description : String
  vendor : String
  deriving DecidableEq, Repr

/-- `AvailableBoards` (boards.go lines 14-45). -/
def availableBoards : List Board :=
  [⟨"nrf21540dk", "nRF21540 DK",
      "Nordic Semiconductor nRF21540 Development Kit", "Nordic"⟩,
   ⟨"nrf52840dk", "nRF52840 DK",
      "Nordic Semiconductor nRF52840 Development Kit", "Nordic"⟩,
   ⟨"nrf52dk", "nRF52 DK",
      "Nordic Semiconductor nRF52 Development Kit", "Nordic"⟩,
   ⟨"xg22_ek4108a", "xG22 EK4108A",
      "Silicon Labs xG22 Explorer Kit", "Silicon Labs"⟩,
   ⟨"xg24_ek2703a", "xG24 EK2703A",
      "Silicon Labs xG24 Explorer Kit", "Silicon Labs"⟩]

/-- The option strings built by main.go lines 91-94 (one per
available board). -/
def boardOptions : List String :=
  availableBoards.map
    (fun b => b.name ++ " - " ++ b.description ++ " (" ++ b.vendor ++ ")")

/-- C9: whenever `PromptChoice` returns, its result indexes the option
list in bounds — it loops, re-prompting, on any input line that does
not parse as an integer between 1 and the number of options — so the
board selected by indexing `AvailableBoards` with its result is always
in bounds. -/
theorem c9_prompt_choice_in_bounds (options : List String)
    (inputs : List String) (i : Nat)
    (h : promptChoice options inputs = some i) :
    i < options.length
    ∧ ∀ js j, promptChoice boardOptions js = some j →
        j < availableBoards.length := by
  refine ⟨promptChoice_lt options inputs i h, fun js j hj => ?_⟩
  have hb := promptChoice_lt boardOptions js j hj
  simpa [boardOptions] using hb

theorem c9_prompt_choice_in_bounds_witness :
    promptChoice boardOptions ["abc", "9", "5"] = some 4 ∧
    4 < boardOptions.length ∧ 4 < availableBoards.length :=
  ⟨by decide,
   (c9_prompt_choice_in_bounds boardOptions ["abc", "9", "5"] 4
      (by decide)).1,
   (c9_prompt_choice_in_bounds boardOptions ["abc", "9", "5"] 4
      (by decide)).2 ["5"] 4 (by decide)⟩

end HubbleInstall
